import Mathlib

/-!
Shallow embedding of the license server in `app.py` (Flask, JSON/Mongo store).

Modelling conventions:
* Times are integers (seconds).  An ISO timestamp string whose parse
  (`parse_dt`) yields time `t` is embedded as `TimeStr.iso t`; the literal
  sentinel strings `"Never"` and `"null"` that `validate_license` treats
  specially are `TimeStr.never` and `TimeStr.nullStr`.  `None` is `Option.none`.
* `hash_hwid` is a deterministic SHA-256 hex digest used only for equality
  comparison, so the embedding takes the already-hashed fingerprint `fp` as
  input (equal hardware ids always map to equal fingerprints).
* The store (`DB`) is the JSON branch: a licenses table keyed by exact
  `license_key` on save and matched case-insensitively on lookup, plus the
  `banned_hwids` table keyed by `hwid_hash`.
* Log `detail` strings are reproduced up to the rendering of timestamps
  (the source interpolates ISO strings which have no literal form here);
  event names and log structure are exact.
* Requests with a missing or empty `license_key`/`hwid` are answered 400
  before any of the modelled logic runs; the embedding covers requests with
  both fields present and nonempty, which is what all claims quantify over.
-/

/-- A duration class, as validated by `generate_key` against
`['lifetime', '2weeks', '1month', 'demo_1min', 'trial_6hours']`. -/
inductive DurationType where
  | lifetime
  | demo_1min
  | trial_6hours
  | twoWeeks
  | oneMonth
deriving Repr, DecidableEq

/-- The value of a stored `expires_at` string: a parseable ISO timestamp
(`iso t`), the literal string `"Never"`, or the literal string `"null"`.
`None` in the source is `Option.none` around this type. -/
inductive TimeStr where
  | iso (t : Int)
  | never
  | nullStr
deriving Repr, DecidableEq

/-- One entry of a license's `logs` list: `{"time": ..., "event": ..., "detail": ...}`. -/
structure LogEntry where
  time : Int
  event : String
  detail : String
deriving Repr, DecidableEq

/-- A license record as stored by `app.py` (fields of the dict created in
`generate_key`, plus `banned_at` which `admin_ban_license` adds). -/
structure License where
  license_key : String
  hwid : Option String
  duration_type : DurationType
  created_at : Int
  expires_at : Option TimeStr
  is_active : Bool
  is_banned : Bool
  ban_reason : String
  last_used : Option Int
  note : String
  is_warnet : Bool
  warnet_active_hwid : Option String
  warnet_session_start : Option Int
  banned_at : Option Int
  logs : List LogEntry
deriving Repr, DecidableEq

/-- An entry of the `banned_hwids` table (global fingerprint denylist). -/
structure BannedHwid where
  hwid_hash : String
  reason : String
  banned_at : Int
  license_key : String
deriving Repr, DecidableEq

/-- The persistent store: `{"licenses": {...}, "banned_hwids": {...}}`. -/
structure DB where
  licenses : List License
  banned_hwids : List BannedHwid
deriving Repr, DecidableEq

/-- Python `str.lower()`, applied character-wise (used for the
case-insensitive key match). -/
def lowerStr (s : String) : String := ⟨s.data.map Char.toLower⟩

/-- Python `s[:n]` on a string: the first `n` characters. -/
def takeStr (n : Nat) (s : String) : String := ⟨s.data.take n⟩

/-- `get_license`: case-insensitive lookup by key
(`k.lower() == key.lower()`). -/
def get_license (db : DB) (key : String) : Option License :=
  db.licenses.find? (fun l => lowerStr l.license_key == lowerStr key)

/-- `save_license`: upsert keyed by the record's exact `license_key`
(`db["licenses"][lic["license_key"]] = lic`). -/
def save_license (db : DB) (lic : License) : DB :=
  if db.licenses.any (fun l => l.license_key == lic.license_key) then
    { db with licenses :=
        db.licenses.map (fun l => if l.license_key == lic.license_key then lic else l) }
  else
    { db with licenses := db.licenses ++ [lic] }

/-- `get_banned_hwid`: lookup in the global denylist by fingerprint hash. -/
def get_banned_hwid (db : DB) (fp : String) : Option BannedHwid :=
  db.banned_hwids.find? (fun b => b.hwid_hash == fp)

/-- `save_banned_hwid`: upsert into the denylist keyed by `hwid_hash`. -/
def save_banned_hwid (db : DB) (entry : BannedHwid) : DB :=
  if db.banned_hwids.any (fun b => b.hwid_hash == entry.hwid_hash) then
    { db with banned_hwids :=
        db.banned_hwids.map (fun b => if b.hwid_hash == entry.hwid_hash then entry else b) }
  else
    { db with banned_hwids := db.banned_hwids ++ [entry] }

/-- `calculate_expires_at(duration_type, start_time)`: `lifetime` has no
expiry; the fixed classes add 1 minute, 6 hours, 14 days, 30 days. -/
def calculate_expires_at (d : DurationType) (start_time : Int) : Option TimeStr :=
  match d with
  | .lifetime => none
  | .demo_1min => some (.iso (start_time + 60))
  | .trial_6hours => some (.iso (start_time + 6 * 3600))
  | .twoWeeks => some (.iso (start_time + 14 * 86400))
  | .oneMonth => some (.iso (start_time + 30 * 86400))

/-- `parse_dt`: defined on parseable ISO timestamps, raises on the
sentinel strings. -/
def parse_dt : TimeStr → Option Int
  | .iso t => some t
  | .never => none
  | .nullStr => none

/-- `log_event(lic, event, detail)`: append `{time, event, detail}` to
`lic["logs"]` then truncate to the last 50 entries (`lic["logs"][-50:]`). -/
def log_event (lic : License) (now : Int) (event detail : String) : License :=
  let logs := lic.logs ++ [⟨now, event, detail⟩]
  { lic with logs := logs.drop (logs.length - 50) }

/-- Python truthiness of an `expires_at` value: `None` is falsy, every
stored string (timestamps and the sentinels, all nonempty) is truthy. -/
def truthy : Option TimeStr → Bool
  | none => false
  | some _ => true

/-- Outcome of `/api/validate` (status + JSON payload distinguishers). -/
inductive VResult where
  | globallyBanned
  | invalidKey
  | licenseBanned (reason : String)
  | licenseInactive
  | warnetLocked
  | hwidMismatch
  | durationEnded
  | valid (duration : DurationType) (expires : TimeStr) (warnetMode : Bool)
deriving Repr, DecidableEq

/-- The `expires_at` field of a success response:
`expires_at_str if expires_at_str else "Never"`. -/
def respExpires : Option TimeStr → TimeStr
  | some e => e
  | none => .never

/-- Result of the binding branch of `validate_license`: either an early
denial that persists the (possibly log-mutated) record, or control falls
through to the expiry check with the updated record. -/
inductive BranchOut where
  | deny (res : VResult) (lic : License)
  | cont (lic : License)
deriving Repr, DecidableEq

/-- The `MODE WARNET` branch of `validate_license`. -/
def warnetBranch (lic : License) (fp : String) (now : Int) : BranchOut :=
  match lic.warnet_active_hwid with
  | some a =>
    if a ≠ fp then
      .deny .warnetLocked
        (log_event lic now "WARNET_LOCKED"
          ("Active: " ++ takeStr 12 a ++ " | Blocked: " ++ takeStr 12 fp))
    else
      .cont (log_event lic now "WARNET_REVALIDATED" ("HWID: " ++ takeStr 12 fp))
  | none =>
    let lic1 := { lic with warnet_active_hwid := some fp, warnet_session_start := some now }
    if ¬ truthy lic1.expires_at ∧ lic1.duration_type ≠ .lifetime then
      let e := calculate_expires_at lic1.duration_type now
      .cont (log_event { lic1 with expires_at := e } now "WARNET_FIRST_ACTIVATION"
              ("HWID: " ++ takeStr 12 fp))
    else
      .cont (log_event lic1 now "WARNET_SESSION_START" ("HWID: " ++ takeStr 12 fp))

/-- The `MODE NORMAL` branch of `validate_license`. -/
def normalBranch (lic : License) (fp : String) (now : Int) : BranchOut :=
  match lic.hwid with
  | none =>
    let lic1 := { lic with hwid := some fp }
    if ¬ truthy lic1.expires_at ∧ lic1.duration_type ≠ .lifetime then
      let e := calculate_expires_at lic1.duration_type now
      .cont (log_event { lic1 with expires_at := e } now "FIRST_ACTIVATION"
              ("HWID: " ++ takeStr 12 fp))
    else
      .cont (log_event lic1 now "HWID_REBOUND" ("HWID: " ++ takeStr 12 fp ++ " | Timer lanjut"))
  | some s =>
    if s ≠ fp then
      .deny .hwidMismatch (log_event lic now "HWID_MISMATCH" ("Got: " ++ takeStr 12 fp))
    else
      .cont lic

/-- `validate_license` (`POST /api/validate`): the full decision pipeline —
global denylist, case-insensitive lookup, ban, active, binding branch,
lazy expiry check, success.  `fp` is `hash_hwid(hwid)`. -/
def validate_license (db : DB) (key fp : String) (now : Int) : VResult × DB :=
  if (get_banned_hwid db fp).isSome then (.globallyBanned, db)
  else
    match get_license db key with
    | none => (.invalidKey, db)
    | some lic =>
      if lic.is_banned then (.licenseBanned lic.ban_reason, db)
      else if ¬ lic.is_active then (.licenseInactive, db)
      else
        match (if lic.is_warnet then warnetBranch lic fp now else normalBranch lic fp now) with
        | .deny res lic1 => (res, save_license db lic1)
        | .cont lic1 =>
          let expired : Bool :=
            match lic1.expires_at with
            | some (.iso t) => decide (now > t)
            | _ => false
          if expired then
            let lic2 :=
              if lic.is_warnet then
                { lic1 with is_active := false, warnet_active_hwid := none,
                            warnet_session_start := none }
              else { lic1 with is_active := false }
            (.durationEnded, save_license db (log_event lic2 now "AUTO_EXPIRED" ""))
          else
            let lic2 := log_event { lic1 with last_used := some now } now "VALIDATED"
                          ("HWID: " ++ takeStr 12 fp)
            (.valid lic1.duration_type (respExpires lic1.expires_at) lic.is_warnet,
             save_license db lic2)

/-- Outcome of `/api/logout`. -/
inductive LogoutResult where
  | invalidKey
  | ok
deriving Repr, DecidableEq

/-- `logout_license` (`POST /api/logout`): 404 on unknown key; in normal
mode a no-op 200; in warnet mode clears the session only when the live
session's fingerprint equals the caller's, always answering 200. -/
def logout_license (db : DB) (key fp : String) (now : Int) : LogoutResult × DB :=
  match get_license db key with
  | none => (.invalidKey, db)
  | some lic =>
    if ¬ lic.is_warnet then (.ok, db)
    else
      if lic.warnet_active_hwid == some fp then
        let lic1 := log_event
          { lic with warnet_active_hwid := none, warnet_session_start := none }
          now "WARNET_LOGOUT" ("HWID: " ++ takeStr 12 fp)
        (.ok, save_license db lic1)
      else
        (.ok, db)

/-- Outcome of an `/admin/api/licenses/<key>/...` route. -/
inductive AResult where
  | notFound
  | success
  | alreadyBanned
  | notExtendable
  | notWarnet
  | crash
deriving Repr, DecidableEq

/-- `admin_reset_hwid`: clear `hwid`; in warnet mode additionally clear the
live session; `expires_at` is untouched in both branches. -/
def admin_reset_hwid (db : DB) (key : String) (now : Int) : AResult × DB :=
  match get_license db key with
  | none => (.notFound, db)
  | some lic =>
    let old := (lic.hwid.getD "none")
    let lic1 := { lic with hwid := none }
    let lic2 :=
      if lic1.is_warnet then
        log_event { lic1 with warnet_active_hwid := none, warnet_session_start := none }
          now "HWID_RESET" ("Old: " ++ takeStr 12 old ++ " | Warnet sesi dibersihkan")
      else
        log_event lic1 now "HWID_RESET" ("Old: " ++ takeStr 12 old ++ " | Sisa waktu dipertahankan")
    (.success, save_license db lic2)

/-- `admin_ban_license`: set ban flags, clear the warnet session, and when
`ban_hwid` is set and a fingerprint is bound, insert it into the global
denylist. -/
def admin_ban_license (db : DB) (key reason : String) (ban_hwid : Bool) (now : Int) :
    AResult × DB :=
  match get_license db key with
  | none => (.notFound, db)
  | some lic =>
    let lic1 := log_event
      { lic with is_banned := true, is_active := false, ban_reason := reason,
                 banned_at := some now, warnet_active_hwid := none,
                 warnet_session_start := none }
      now "BANNED" reason
    match lic1.hwid with
    | some h =>
      if ban_hwid then
        let db1 := save_banned_hwid db
          { hwid_hash := h, reason := reason, banned_at := now,
            license_key := lic1.license_key }
        let lic2 := log_event lic1 now "HWID_BANNED" (takeStr 12 h)
        (.success, save_license db1 lic2)
      else (.success, save_license db lic1)
    | none => (.success, save_license db lic1)

/-- `admin_unban_license`: clear ban flags and restore `is_active`. -/
def admin_unban_license (db : DB) (key : String) (now : Int) : AResult × DB :=
  match get_license db key with
  | none => (.notFound, db)
  | some lic =>
    let lic1 := log_event
      { lic with is_banned := false, is_active := true, ban_reason := "" }
      now "UNBANNED" ""
    (.success, save_license db lic1)

/-- `admin_deactivate`: force `is_active := false` and clear the warnet
session. -/
def admin_deactivate (db : DB) (key : String) (now : Int) : AResult × DB :=
  match get_license db key with
  | none => (.notFound, db)
  | some lic =>
    let lic1 := log_event
      { lic with is_active := false, warnet_active_hwid := none,
                 warnet_session_start := none }
      now "DEACTIVATED" "Manual by admin"
    (.success, save_license db lic1)

/-- `admin_reactivate`: refused with 400 while banned, otherwise restores
`is_active`. -/
def admin_reactivate (db : DB) (key : String) (now : Int) : AResult × DB :=
  match get_license db key with
  | none => (.notFound, db)
  | some lic =>
    if lic.is_banned then (.alreadyBanned, db)
    else
      let lic1 := log_event { lic with is_active := true } now "REACTIVATED" "Manual by admin"
      (.success, save_license db lic1)

/-- `admin_extend`: refused for lifetime licenses; otherwise the new expiry
is `max(parse_dt(expires_at), now) + days` when an expiry is stored, else
`now + days`; `is_active` is set unconditionally.  A stored sentinel string
makes `parse_dt` raise (a 500, modelled as `.crash`). -/
def admin_extend (db : DB) (key : String) (days : Int) (now : Int) : AResult × DB :=
  match get_license db key with
  | none => (.notFound, db)
  | some lic =>
    if lic.duration_type = .lifetime then (.notExtendable, db)
    else
      let base? : Option Int :=
        match lic.expires_at with
        | none => some now
        | some e => (parse_dt e).map (fun t => max t now)
      match base? with
      | none => (.crash, db)
      | some base =>
        let new_exp := base + days * 86400
        let lic1 := log_event
          { lic with expires_at := some (.iso new_exp), is_active := true }
          now "EXTENDED" ("+" ++ toString days ++ " hari")
        (.success, save_license db lic1)

/-- `admin_set_warnet`: toggle warnet mode; enabling clears the permanent
binding and any session, disabling clears the session. -/
def admin_set_warnet (db : DB) (key : String) (w : Bool) (now : Int) : AResult × DB :=
  match get_license db key with
  | none => (.notFound, db)
  | some lic =>
    let lic0 := { lic with is_warnet := w }
    let lic1 :=
      if w then
        log_event { lic0 with hwid := none, warnet_active_hwid := none,
                              warnet_session_start := none }
          now "WARNET_ENABLED" "Mode warnet diaktifkan, HWID lock dihapus"
      else
        log_event { lic0 with warnet_active_hwid := none, warnet_session_start := none }
          now "WARNET_DISABLED" "Mode warnet dinonaktifkan"
    (.success, save_license db lic1)

/-- `admin_warnet_logout`: admin force-clear of a warnet session. -/
def admin_warnet_logout (db : DB) (key : String) (now : Int) : AResult × DB :=
  match get_license db key with
  | none => (.notFound, db)
  | some lic =>
    if ¬ lic.is_warnet then (.notWarnet, db)
    else
      let old := ((lic.warnet_active_hwid).getD "none")
      let lic1 := log_event
        { lic with warnet_active_hwid := none, warnet_session_start := none }
        now "WARNET_FORCE_LOGOUT" ("Admin clear sesi. Was: " ++ takeStr 12 old)
      (.success, save_license db lic1)

/-! ### Store lemmas -/

theorem banned_hwids_save_license (db : DB) (lic : License) :
    (save_license db lic).banned_hwids = db.banned_hwids := by
  unfold save_license; split <;> rfl

theorem licenses_save_banned_hwid (db : DB) (e : BannedHwid) :
    (save_banned_hwid db e).licenses = db.licenses := by
  unfold save_banned_hwid; split <;> rfl

theorem get_banned_hwid_save_license (db : DB) (lic : License) (fp : String) :
    get_banned_hwid (save_license db lic) fp = get_banned_hwid db fp := by
  unfold get_banned_hwid; rw [banned_hwids_save_license]

theorem get_license_save_license (db : DB) (key : String) (lic lic1 : License)
    (hget : get_license db key = some lic)
    (hkey : lic1.license_key = lic.license_key) :
    get_license (save_license db lic1) key = some lic1 := by
  have hget1 : db.licenses.find? (fun l => lowerStr l.license_key == lowerStr key) = some lic :=
    hget
  have hp : (lowerStr lic.license_key == lowerStr key) = true := by
    have h2 := List.find?_some hget1
    simpa using h2
  have hany : db.licenses.any (fun l => l.license_key == lic1.license_key) = true := by
    refine List.any_eq_true.mpr ⟨lic, List.mem_of_find?_eq_some hget1, ?_⟩
    simp [hkey]
  unfold get_license
  unfold save_license
  simp only [hany, if_true]
  obtain ⟨ls, bs⟩ := db
  simp only at hget1 ⊢
  clear hget hany
  induction ls with
  | nil => simp at hget1
  | cons h t ih =>
    simp only [List.map_cons]
    by_cases hh : (lowerStr h.license_key == lowerStr key) = true
    · rw [@List.find?_cons_of_pos _ (fun l => lowerStr l.license_key == lowerStr key) h t hh]
        at hget1
      have hl : h = lic := Option.some.inj hget1
      subst hl
      have hb : (h.license_key == lic1.license_key) = true := by simp [hkey]
      rw [if_pos hb]
      refine @List.find?_cons_of_pos _ (fun l => lowerStr l.license_key == lowerStr key) lic1 _ ?_
      show (lowerStr lic1.license_key == lowerStr key) = true
      rw [hkey]; exact hp
    · rw [@List.find?_cons_of_neg _ (fun l => lowerStr l.license_key == lowerStr key) h t hh]
        at hget1
      have hne : ¬ (h.license_key == lic1.license_key) = true := by
        intro hc
        have he : h.license_key = lic1.license_key := by simpa using hc
        apply hh
        show (lowerStr h.license_key == lowerStr key) = true
        rw [he, hkey]; exact hp
      rw [if_neg hne]
      rw [@List.find?_cons_of_neg _ (fun l => lowerStr l.license_key == lowerStr key) h _ hh]
      exact ih hget1

theorem get_banned_hwid_save_banned_hwid (db : DB) (e : BannedHwid) :
    get_banned_hwid (save_banned_hwid db e) e.hwid_hash = some e := by
  unfold get_banned_hwid save_banned_hwid
  by_cases hany : db.banned_hwids.any (fun b => b.hwid_hash == e.hwid_hash) = true
  · simp only [hany, if_true]
    obtain ⟨ls, bs⟩ := db
    simp only at hany ⊢
    induction bs with
    | nil => simp at hany
    | cons h t ih =>
      simp only [List.map_cons]
      by_cases hh : (h.hwid_hash == e.hwid_hash) = true
      · rw [if_pos hh]
        refine @List.find?_cons_of_pos _ (fun b => b.hwid_hash == e.hwid_hash) e _ ?_
        show (e.hwid_hash == e.hwid_hash) = true
        exact beq_self_eq_true _
      · rw [if_neg hh]
        rw [@List.find?_cons_of_neg _ (fun b => b.hwid_hash == e.hwid_hash) h _ hh]
        simp only [Bool.not_eq_true] at hh
        simp only [List.any_cons, hh, Bool.false_or] at hany
        exact ih hany
  · simp only [Bool.not_eq_true] at hany
    simp only [hany, Bool.false_eq_true, if_false]
    rw [List.find?_append]
    have hnone : db.banned_hwids.find? (fun b => b.hwid_hash == e.hwid_hash) = none := by
      rw [List.find?_eq_none]
      intro x hx hpx
      have hx2 : db.banned_hwids.any (fun b => b.hwid_hash == e.hwid_hash) = true :=
        List.any_eq_true.mpr ⟨x, hx, hpx⟩
      rw [hx2] at hany
      cases hany
    rw [hnone]
    simp

/-! ### Audit log lemmas -/

/-- Python `xs[-n:]`: the suffix of the most recent `n` entries. -/
def takeLast (n : Nat) (xs : List LogEntry) : List LogEntry :=
  xs.drop (xs.length - n)

theorem takeLast_append_takeLast (n : Nat) (xs ys : List LogEntry) :
    takeLast n (takeLast n xs ++ ys) = takeLast n (xs ++ ys) := by
  unfold takeLast
  by_cases hx : xs.length ≤ n
  · have h0 : xs.length - n = 0 := by omega
    rw [h0, List.drop_zero]
  · push_neg at hx
    have hlen : (xs.drop (xs.length - n)).length = n := by
      rw [List.length_drop]; omega
    by_cases hy : ys.length ≤ n
    · have e1 : (xs.drop (xs.length - n) ++ ys).length - n = ys.length := by
        rw [List.length_append, hlen]; omega
      have e2 : (xs ++ ys).length - n = (xs.length - n) + ys.length := by
        rw [List.length_append]; omega
      have d1 : (xs.drop (xs.length - n) ++ ys).drop ys.length =
          (xs.drop (xs.length - n)).drop ys.length ++ ys :=
        List.drop_append_of_le_length (by rw [hlen]; exact hy)
      have d2 : (xs.drop (xs.length - n)).drop ys.length =
          xs.drop ((xs.length - n) + ys.length) := List.drop_drop _ _ _
      have d3 : (xs ++ ys).drop ((xs.length - n) + ys.length) =
          xs.drop ((xs.length - n) + ys.length) ++ ys :=
        List.drop_append_of_le_length (by omega)
      rw [e1, e2, d1, d2, d3]
    · push_neg at hy
      have e1 : (xs.drop (xs.length - n) ++ ys).length - n =
          (xs.drop (xs.length - n)).length + (ys.length - n) := by
        rw [List.length_append, hlen]; omega
      have e2 : (xs ++ ys).length - n = xs.length + (ys.length - n) := by
        rw [List.length_append]; omega
      rw [e1, e2, List.drop_append, List.drop_append]

theorem log_event_logs (lic : License) (now : Int) (ev d : String) :
    (log_event lic now ev d).logs = takeLast 50 (lic.logs ++ [⟨now, ev, d⟩]) := rfl

theorem log_event_length_le (lic : License) (now : Int) (ev d : String) :
    (log_event lic now ev d).logs.length ≤ 50 := by
  rw [log_event_logs]
  unfold takeLast
  rw [List.length_drop, List.length_append]
  simp only [List.length_cons, List.length_nil]
  omega

/-- A sequence of `log_event` calls, one per `(time, event, detail)` triple. -/
def appendEvents (lic : License) (es : List (Int × String × String)) : License :=
  es.foldl (fun l e => log_event l e.1 e.2.1 e.2.2) lic

/-- The log entry a triple turns into. -/
def mkEntry (e : Int × String × String) : LogEntry := ⟨e.1, e.2.1, e.2.2⟩

theorem appendEvents_logs (es : List (Int × String × String)) (lic : License)
    (hlen : lic.logs.length ≤ 50) :
    (appendEvents lic es).logs = takeLast 50 (lic.logs ++ es.map mkEntry) := by
  induction es generalizing lic with
  | nil =>
    unfold appendEvents takeLast
    simp only [List.foldl_nil, List.map_nil, List.append_nil]
    have h0 : lic.logs.length - 50 = 0 := by omega
    rw [h0, List.drop_zero]
  | cons e es ih =>
    unfold appendEvents
    rw [List.foldl_cons]
    have step := ih (log_event lic e.1 e.2.1 e.2.2) (log_event_length_le _ _ _ _)
    unfold appendEvents at step
    rw [step, log_event_logs]
    rw [takeLast_append_takeLast]
    rw [List.append_assoc]
    simp only [List.map_cons, List.singleton_append]
    rfl

theorem log_event_getLast (lic : License) (now : Int) (ev d : String) :
    (log_event lic now ev d).logs.getLast? = some ⟨now, ev, d⟩ := by
  rw [log_event_logs]
  unfold takeLast
  have hle : (lic.logs ++ [(⟨now, ev, d⟩ : LogEntry)]).length - 50 ≤ lic.logs.length := by
    rw [List.length_append]
    simp only [List.length_cons, List.length_nil]
    omega
  rw [List.drop_append_of_le_length hle]
  rw [List.getLast?_concat]

/-! ### Validation pipeline lemmas -/

/-- The record carried by a branch outcome. -/
def outLic : BranchOut → License
  | .deny _ l => l
  | .cont l => l

/-- `validate_license` reduced past the denylist, lookup, ban and active
checks. -/
theorem validate_license_checks (db : DB) (key fp : String) (now : Int) (lic : License)
    (hb : (get_banned_hwid db fp).isSome = false)
    (hg : get_license db key = some lic)
    (h1 : lic.is_banned = false) (h2 : lic.is_active = true) :
    validate_license db key fp now =
      match (if lic.is_warnet then warnetBranch lic fp now else normalBranch lic fp now) with
      | .deny res lic1 => (res, save_license db lic1)
      | .cont lic1 =>
        if (match lic1.expires_at with
            | some (.iso t) => decide (now > t)
            | _ => false) then
          (.durationEnded, save_license db
            (log_event (if lic.is_warnet then
                { lic1 with is_active := false, warnet_active_hwid := none,
                            warnet_session_start := none }
              else { lic1 with is_active := false }) now "AUTO_EXPIRED" ""))
        else
          (.valid lic1.duration_type (respExpires lic1.expires_at) lic.is_warnet,
           save_license db (log_event { lic1 with last_used := some now } now "VALIDATED"
             ("HWID: " ++ takeStr 12 fp))) := by
  unfold validate_license
  rw [hb, hg]
  simp only [h1, h2, Bool.false_eq_true, if_false, not_true, Bool.true_eq_false]

/-- Warnet branch: live session held by another fingerprint. -/
theorem warnetBranch_locked (lic : License) (fp a : String) (now : Int)
    (ha : lic.warnet_active_hwid = some a) (hne : a ≠ fp) :
    warnetBranch lic fp now = .deny .warnetLocked
      (log_event lic now "WARNET_LOCKED"
        ("Active: " ++ takeStr 12 a ++ " | Blocked: " ++ takeStr 12 fp)) := by
  unfold warnetBranch
  rw [ha]
  simp [hne]

/-- Warnet branch: the session holder revalidates. -/
theorem warnetBranch_revalidate (lic : License) (fp : String) (now : Int)
    (ha : lic.warnet_active_hwid = some fp) :
    warnetBranch lic fp now =
      .cont (log_event lic now "WARNET_REVALIDATED" ("HWID: " ++ takeStr 12 fp)) := by
  unfold warnetBranch
  rw [ha]
  simp

/-- Warnet branch: opening a session while the duration clock is already
running (or the class is lifetime) does not recompute `expires_at`. -/
theorem warnetBranch_open_noRestart (lic : License) (fp : String) (now : Int)
    (ha : lic.warnet_active_hwid = none)
    (hc : truthy lic.expires_at = true ∨ lic.duration_type = .lifetime) :
    warnetBranch lic fp now =
      .cont (log_event
        { lic with warnet_active_hwid := some fp, warnet_session_start := some now }
        now "WARNET_SESSION_START" ("HWID: " ++ takeStr 12 fp)) := by
  unfold warnetBranch
  rw [ha]
  have : ¬ (¬ truthy lic.expires_at = true ∧ lic.duration_type ≠ .lifetime) := by
    rcases hc with hc | hc
    · intro hand; exact hand.1 hc
    · intro hand; exact hand.2 hc
  simp only [if_neg this]

/-- Normal branch: the bound fingerprint presents itself again. -/
theorem normalBranch_match (lic : License) (fp : String) (now : Int)
    (hh : lic.hwid = some fp) :
    normalBranch lic fp now = .cont lic := by
  unfold normalBranch
  rw [hh]
  simp

/-- Normal branch: a different fingerprint is denied. -/
theorem normalBranch_mismatch (lic : License) (fp s : String) (now : Int)
    (hh : lic.hwid = some s) (hne : s ≠ fp) :
    normalBranch lic fp now =
      .deny .hwidMismatch (log_event lic now "HWID_MISMATCH" ("Got: " ++ takeStr 12 fp)) := by
  unfold normalBranch
  rw [hh]
  simp [hne]

/-- Normal branch: rebinding while the duration clock is already running
(or the class is lifetime) keeps `expires_at`. -/
theorem normalBranch_rebind_noRestart (lic : License) (fp : String) (now : Int)
    (hh : lic.hwid = none)
    (hc : truthy lic.expires_at = true ∨ lic.duration_type = .lifetime) :
    normalBranch lic fp now =
      .cont (log_event { lic with hwid := some fp } now "HWID_REBOUND"
        ("HWID: " ++ takeStr 12 fp ++ " | Timer lanjut")) := by
  unfold normalBranch
  rw [hh]
  have : ¬ (¬ truthy lic.expires_at = true ∧ lic.duration_type ≠ .lifetime) := by
    rcases hc with hc | hc
    · intro hand; exact hand.1 hc
    · intro hand; exact hand.2 hc
  simp only [if_neg this]

/-- Neither branch changes `expires_at` when it is already set or the
class is lifetime. -/
theorem branch_expires_preserved (lic : License) (fp : String) (now : Int)
    (hc : truthy lic.expires_at = true ∨ lic.duration_type = .lifetime) :
    (outLic (warnetBranch lic fp now)).expires_at = lic.expires_at ∧
    (outLic (normalBranch lic fp now)).expires_at = lic.expires_at := by
  have hcond : ∀ e d, e = lic.expires_at → d = lic.duration_type →
      ¬ (¬ truthy e = true ∧ d ≠ .lifetime) := by
    intro e d he hd
    subst he; subst hd
    rcases hc with hc | hc
    · intro hand; exact hand.1 hc
    · intro hand; exact hand.2 hc
  constructor
  · unfold warnetBranch
    cases ha : lic.warnet_active_hwid with
    | some a =>
      by_cases hne : a ≠ fp
      · simp [hne, outLic, log_event]
      · simp [hne, outLic, log_event]
    | none =>
      rw [if_neg (hcond _ _ rfl rfl)]
      simp [outLic, log_event]
  · unfold normalBranch
    cases hh : lic.hwid with
    | some s =>
      by_cases hne : s ≠ fp
      · simp [hne, outLic, log_event]
      · simp [hne, outLic, log_event]
    | none =>
      rw [if_neg (hcond _ _ rfl rfl)]
      simp [outLic, log_event]

/-- A branch denial is returned as-is, persisting the branch's record. -/
theorem validate_deny (db : DB) (key fp : String) (now : Int) (lic lic1 : License)
    (res : VResult)
    (hb : (get_banned_hwid db fp).isSome = false)
    (hg : get_license db key = some lic)
    (h1 : lic.is_banned = false) (h2 : lic.is_active = true)
    (hbr : (if lic.is_warnet then warnetBranch lic fp now else normalBranch lic fp now) =
      .deny res lic1) :
    validate_license db key fp now = (res, save_license db lic1) := by
  rw [validate_license_checks db key fp now lic hb hg h1 h2, hbr]

/-- A fall-through with no (applicable) expiry yields the success response. -/
theorem validate_cont_success (db : DB) (key fp : String) (now : Int) (lic lic1 : License)
    (hb : (get_banned_hwid db fp).isSome = false)
    (hg : get_license db key = some lic)
    (h1 : lic.is_banned = false) (h2 : lic.is_active = true)
    (hbr : (if lic.is_warnet then warnetBranch lic fp now else normalBranch lic fp now) =
      .cont lic1)
    (hnotexp : (match lic1.expires_at with
        | some (.iso t) => decide (now > t)
        | _ => false) = false) :
    validate_license db key fp now =
      (.valid lic1.duration_type (respExpires lic1.expires_at) lic.is_warnet,
       save_license db (log_event { lic1 with last_used := some now } now "VALIDATED"
         ("HWID: " ++ takeStr 12 fp))) := by
  rw [validate_license_checks db key fp now lic hb hg h1 h2, hbr]
  simp only [hnotexp, Bool.false_eq_true, if_false]

/-- A fall-through whose stored expiry has passed flips the record inactive
and denies. -/
theorem validate_cont_expired (db : DB) (key fp : String) (now : Int) (lic lic1 : License)
    (t : Int)
    (hb : (get_banned_hwid db fp).isSome = false)
    (hg : get_license db key = some lic)
    (h1 : lic.is_banned = false) (h2 : lic.is_active = true)
    (hbr : (if lic.is_warnet then warnetBranch lic fp now else normalBranch lic fp now) =
      .cont lic1)
    (hexp : lic1.expires_at = some (.iso t)) (hgt : now > t) :
    validate_license db key fp now =
      (.durationEnded, save_license db
        (log_event (if lic.is_warnet then
            { lic1 with is_active := false, warnet_active_hwid := none,
                        warnet_session_start := none }
          else { lic1 with is_active := false }) now "AUTO_EXPIRED" "")) := by
  rw [validate_license_checks db key fp now lic hb hg h1 h2, hbr]
  have hd : (decide (now > t)) = true := decide_eq_true hgt
  simp only [hexp, hd, if_true]

theorem validate_globallyBanned (db : DB) (key fp : String) (now : Int)
    (hb : (get_banned_hwid db fp).isSome = true) :
    validate_license db key fp now = (.globallyBanned, db) := by
  unfold validate_license
  rw [hb]
  rfl

theorem validate_invalidKey (db : DB) (key fp : String) (now : Int)
    (hb : (get_banned_hwid db fp).isSome = false)
    (hg : get_license db key = none) :
    validate_license db key fp now = (.invalidKey, db) := by
  unfold validate_license
  rw [hb, hg]
  rfl

theorem validate_banned (db : DB) (key fp : String) (now : Int) (lic : License)
    (hb : (get_banned_hwid db fp).isSome = false)
    (hg : get_license db key = some lic)
    (h1 : lic.is_banned = true) :
    validate_license db key fp now = (.licenseBanned lic.ban_reason, db) := by
  unfold validate_license
  rw [hb, hg]
  simp [h1]

theorem validate_inactive (db : DB) (key fp : String) (now : Int) (lic : License)
    (hb : (get_banned_hwid db fp).isSome = false)
    (hg : get_license db key = some lic)
    (h1 : lic.is_banned = false) (h2 : lic.is_active = false) :
    validate_license db key fp now = (.licenseInactive, db) := by
  unfold validate_license
  rw [hb, hg]
  simp [h1, h2]

/-- Combined form of `branch_expires_preserved` for the mode dispatch. -/
theorem branch_if_expires_preserved (lic : License) (fp : String) (now : Int)
    (hc : truthy lic.expires_at = true ∨ lic.duration_type = .lifetime) :
    (outLic (if lic.is_warnet then warnetBranch lic fp now
             else normalBranch lic fp now)).expires_at = lic.expires_at := by
  by_cases hw : lic.is_warnet = true
  · rw [hw]
    simp only [if_true]
    exact (branch_expires_preserved lic fp now hc).1
  · simp only [Bool.not_eq_true] at hw
    rw [hw]
    simp only [Bool.false_eq_true, if_false]
    exact (branch_expires_preserved lic fp now hc).2

/-- Frame property: when the duration clock is already running (or the
class is lifetime), no path of `validate_license` writes a different
`expires_at` for the record. -/
theorem validate_expires_frame (db : DB) (key fp : String) (now : Int) (lic : License)
    (hg : get_license db key = some lic)
    (hc : truthy lic.expires_at = true ∨ lic.duration_type = .lifetime) :
    (validate_license db key fp now).2 = db ∨
    ∃ r, (validate_license db key fp now).2 = save_license db r ∧
      r.expires_at = lic.expires_at := by
  by_cases hb : (get_banned_hwid db fp).isSome = true
  · left; rw [validate_globallyBanned db key fp now hb]
  · simp only [Bool.not_eq_true] at hb
    by_cases h1 : lic.is_banned = true
    · left; rw [validate_banned db key fp now lic hb hg h1]
    · simp only [Bool.not_eq_true] at h1
      by_cases h2 : lic.is_active = true
      · have hpres := branch_if_expires_preserved lic fp now hc
        cases hout : (if lic.is_warnet then warnetBranch lic fp now
            else normalBranch lic fp now) with
        | deny res lic1 =>
          rw [hout] at hpres
          simp only [outLic] at hpres
          have hv := validate_deny db key fp now lic lic1 res hb hg h1 h2 hout
          right
          exact ⟨lic1, by rw [hv], hpres⟩
        | cont lic1 =>
          rw [hout] at hpres
          simp only [outLic] at hpres
          by_cases hexp : (match lic1.expires_at with
              | some (.iso t) => decide (now > t)
              | _ => false) = true
          · obtain ⟨t, hts, hgt⟩ : ∃ t, lic1.expires_at = some (.iso t) ∧ now > t := by
              cases hts : lic1.expires_at with
              | none => rw [hts] at hexp; simp at hexp
              | some ts =>
                cases ts with
                | iso t =>
                  refine ⟨t, rfl, ?_⟩
                  rw [hts] at hexp
                  simpa using hexp
                | never => rw [hts] at hexp; simp at hexp
                | nullStr => rw [hts] at hexp; simp at hexp
            have hv := validate_cont_expired db key fp now lic lic1 t hb hg h1 h2 hout hts hgt
            right
            refine ⟨_, by rw [hv], ?_⟩
            by_cases hw : lic.is_warnet = true <;> simp [hw, log_event, hpres]
          · simp only [Bool.not_eq_true] at hexp
            have hv := validate_cont_success db key fp now lic lic1 hb hg h1 h2 hout hexp
            right
            refine ⟨_, by rw [hv], ?_⟩
            simp [log_event, hpres]
      · simp only [Bool.not_eq_true] at h2
        left; rw [validate_inactive db key fp now lic hb hg h1 h2]

/-- Successful normal-mode bind while the clock is already running: the new
fingerprint is bound and the stored expiry is resumed unchanged. -/
theorem validate_rebind_resumes (db : DB) (key fp : String) (now : Int) (lic : License)
    (t : Int)
    (hb : (get_banned_hwid db fp).isSome = false)
    (hg : get_license db key = some lic)
    (h1 : lic.is_banned = false) (h2 : lic.is_active = true) (h3 : lic.is_warnet = false)
    (h4 : lic.hwid = none) (h5 : lic.expires_at = some (.iso t)) (h6 : now ≤ t) :
    ∃ r, validate_license db key fp now =
        (.valid lic.duration_type (.iso t) false, save_license db r) ∧
      r.hwid = some fp ∧ r.expires_at = some (.iso t) ∧
      r.license_key = lic.license_key := by
  set lic1 := log_event { lic with hwid := some fp } now "HWID_REBOUND"
    ("HWID: " ++ takeStr 12 fp ++ " | Timer lanjut") with hlic1
  have hbr : (if lic.is_warnet then warnetBranch lic fp now else normalBranch lic fp now) =
      .cont lic1 := by
    rw [h3]
    simp only [Bool.false_eq_true, if_false]
    exact normalBranch_rebind_noRestart lic fp now h4 (Or.inl (by rw [h5]; rfl))
  have hexp1 : lic1.expires_at = some (.iso t) := by simp [hlic1, log_event, h5]
  have hdur : lic1.duration_type = lic.duration_type := by simp [hlic1, log_event]
  have hnot : (match lic1.expires_at with
      | some (.iso u) => decide (now > u)
      | _ => false) = false := by
    rw [hexp1]
    simp only [decide_eq_false_iff_not]
    omega
  have hv := validate_cont_success db key fp now lic lic1 hb hg h1 h2 hbr hnot
  refine ⟨log_event { lic1 with last_used := some now } now "VALIDATED"
      ("HWID: " ++ takeStr 12 fp), ?_, ?_, ?_, ?_⟩
  · rw [hv, hdur, hexp1, h3]
    rfl
  · simp [hlic1, log_event]
  · simp [hlic1, log_event, h5]
  · simp [hlic1, log_event]

/-- Successful warnet-mode session open while the clock is already running:
the session is taken and the stored expiry is resumed unchanged. -/
theorem validate_session_open_resumes (db : DB) (key fp : String) (now : Int) (lic : License)
    (t : Int)
    (hb : (get_banned_hwid db fp).isSome = false)
    (hg : get_license db key = some lic)
    (h1 : lic.is_banned = false) (h2 : lic.is_active = true) (h3 : lic.is_warnet = true)
    (h4 : lic.warnet_active_hwid = none)
    (h5 : lic.expires_at = some (.iso t)) (h6 : now ≤ t) :
    ∃ r, validate_license db key fp now =
        (.valid lic.duration_type (.iso t) true, save_license db r) ∧
      r.warnet_active_hwid = some fp ∧ r.expires_at = some (.iso t) ∧
      r.license_key = lic.license_key := by
  set lic1 := log_event
    { lic with warnet_active_hwid := some fp, warnet_session_start := some now }
    now "WARNET_SESSION_START" ("HWID: " ++ takeStr 12 fp) with hlic1
  have hbr : (if lic.is_warnet then warnetBranch lic fp now else normalBranch lic fp now) =
      .cont lic1 := by
    rw [h3]
    simp only [if_true]
    exact warnetBranch_open_noRestart lic fp now h4 (Or.inl (by rw [h5]; rfl))
  have hexp1 : lic1.expires_at = some (.iso t) := by simp [hlic1, log_event, h5]
  have hdur : lic1.duration_type = lic.duration_type := by simp [hlic1, log_event]
  have hnot : (match lic1.expires_at with
      | some (.iso u) => decide (now > u)
      | _ => false) = false := by
    rw [hexp1]
    simp only [decide_eq_false_iff_not]
    omega
  have hv := validate_cont_success db key fp now lic lic1 hb hg h1 h2 hbr hnot
  refine ⟨log_event { lic1 with last_used := some now } now "VALIDATED"
      ("HWID: " ++ takeStr 12 fp), ?_, ?_, ?_, ?_⟩
  · rw [hv, hdur, hexp1, h3]
    rfl
  · simp [hlic1, log_event]
  · simp [hlic1, log_event, h5]
  · simp [hlic1, log_event]

/-! ### Concrete fixtures -/

/-- A freshly generated two-week license, shaped as `generate_key` stores it. -/
def sampleLicense : License :=
  { license_key := "DTC_JimBeam_a1b2c3", hwid := none, duration_type := .twoWeeks,
    created_at := 0, expires_at := none, is_active := true, is_banned := false,
    ban_reason := "", last_used := none, note := "", is_warnet := false,
    warnet_active_hwid := none, warnet_session_start := none, banned_at := none,
    logs := [] }

/-- A banned non-lifetime license (`admin_ban_license` output shape). -/
def bannedFixture : License :=
  { sampleLicense with
    is_banned := true
    is_active := false
    ban_reason := "abuse"
    banned_at := some 60
    expires_at := some (.iso 50) }

def dbBannedFixture : DB := { licenses := [bannedFixture], banned_hwids := [] }

def emptyDb : DB := { licenses := [], banned_hwids := [] }

/-- A warnet-mode license with a live session held by fingerprint `f1`. -/
def warnetSessionLicense : License :=
  { sampleLicense with
    license_key := "DTC_Absolut_0f0f0f"
    is_warnet := true
    warnet_active_hwid := some "f1"
    warnet_session_start := some 5
    expires_at := some (.iso 1000) }

def dbWarnetSession : DB := { licenses := [warnetSessionLicense], banned_hwids := [] }

def denyEntry : BannedHwid :=
  { hwid_hash := "f1", reason := "cheat", banned_at := 3,
    license_key := "DTC_JimBeam_a1b2c3" }

def dbDenylisted : DB := { licenses := [sampleLicense], banned_hwids := [denyEntry] }

/-- A bound normal-mode license whose expiry is in the past. -/
def expiredBoundLicense : License :=
  { sampleLicense with
    hwid := some "fA"
    expires_at := some (.iso 100) }

def dbExpiredBound : DB := { licenses := [expiredBoundLicense], banned_hwids := [] }

/-! ### Claims -/

/-- **C1.** The claimed invariant (`is_banned = true` implies
`is_active = false` after every admin/validation mutation) is broken by
`admin_extend`: extending a banned, non-lifetime license succeeds and leaves
the stored record with `is_banned = true` and `is_active = true`, because
`admin_extend` sets `is_active` unconditionally and — unlike
`admin_reactivate`, which refuses banned licenses — never checks
`is_banned`.  This theorem evaluates the code at that failing input. -/
theorem extend_banned_license_breaks_ban_invariant :
    (admin_extend dbBannedFixture "DTC_JimBeam_a1b2c3" 7 100).1 = .success ∧
    (get_license (admin_extend dbBannedFixture "DTC_JimBeam_a1b2c3" 7 100).2
        "DTC_JimBeam_a1b2c3").map (fun r => (r.is_banned, r.is_active)) =
      some (true, true) := by
  constructor
  · decide
  · decide

/-- **C2 (amended).** `logout` is answered 200 and is idempotent for every
request whose `license_key` matches a stored record: a non-warnet record is
left untouched, the warnet session holder's logout clears the session and
persists without touching `expires_at`, and any other caller is a no-op
success.  A key matching no record, however, is answered 404 `Invalid Key`
(not 200 as claimed). -/
theorem logout_idempotent_for_known_keys :
    (∀ db key fp now, get_license db key = none →
        logout_license db key fp now = (.invalidKey, db)) ∧
    (∀ db key fp now lic, get_license db key = some lic → lic.is_warnet = false →
        logout_license db key fp now = (.ok, db)) ∧
    (∀ db key fp now lic, get_license db key = some lic → lic.is_warnet = true →
        lic.warnet_active_hwid = some fp →
        ∃ r, logout_license db key fp now = (.ok, save_license db r) ∧
          r.warnet_active_hwid = none ∧ r.warnet_session_start = none ∧
          r.expires_at = lic.expires_at ∧ r.license_key = lic.license_key) ∧
    (∀ db key fp now lic, get_license db key = some lic → lic.is_warnet = true →
        lic.warnet_active_hwid ≠ some fp →
        logout_license db key fp now = (.ok, db)) := by
  refine ⟨?_, ?_, ?_, ?_⟩
  · intro db key fp now h
    unfold logout_license
    rw [h]
  · intro db key fp now lic hget hw
    unfold logout_license
    rw [hget]
    simp [hw]
  · intro db key fp now lic hget hw ha
    refine ⟨log_event
        { lic with warnet_active_hwid := none, warnet_session_start := none }
        now "WARNET_LOGOUT" ("HWID: " ++ takeStr 12 fp), ?_, ?_, ?_, ?_, ?_⟩
    · unfold logout_license
      rw [hget]
      simp [hw, ha]
    · simp [log_event]
    · simp [log_event]
    · simp [log_event]
    · simp [log_event]
  · intro db key fp now lic hget hw hne
    unfold logout_license
    rw [hget]
    simp [hw, hne]

/-- **C2 (counterexample).** A `logout` whose key matches no record is a 404
`Invalid Key` error, refuting "200 success for every input". -/
theorem logout_unknown_key_is_error :
    (logout_license emptyDb "DTC_JimBeam_a1b2c3" "f1" 0).1 = .invalidKey ∧
    (logout_license emptyDb "DTC_JimBeam_a1b2c3" "f1" 0).1 ≠ .ok := by
  constructor
  · rfl
  · decide

theorem logout_idempotent_for_known_keys_witness :
    get_license dbWarnetSession "DTC_Absolut_0f0f0f" = some warnetSessionLicense ∧
    warnetSessionLicense.is_warnet = true ∧
    warnetSessionLicense.warnet_active_hwid = some "f1" ∧
    ∃ r, logout_license dbWarnetSession "DTC_Absolut_0f0f0f" "f1" 9 =
        (.ok, save_license dbWarnetSession r) ∧
      r.warnet_active_hwid = none ∧ r.warnet_session_start = none ∧
      r.expires_at = warnetSessionLicense.expires_at ∧
      r.license_key = warnetSessionLicense.license_key :=
  ⟨by rfl, rfl, rfl,
   logout_idempotent_for_known_keys.2.2.1 dbWarnetSession "DTC_Absolut_0f0f0f" "f1" 9
     warnetSessionLicense (by rfl) rfl rfl⟩

/-- Inserting an entry makes its hash denylisted. -/
theorem get_banned_hwid_after_insert (db : DB) (e : BannedHwid) (fp : String)
    (h : e.hwid_hash = fp) :
    (get_banned_hwid (save_banned_hwid db e) fp).isSome = true := by
  subst h
  rw [get_banned_hwid_save_banned_hwid]
  rfl

/-- **C8.** A fingerprint in the global denylist is denied `GloballyBanned`
independent of any license state — the check runs before the key lookup and
hence before the per-license ban and active checks, so the store is
unchanged — and banning a license with `ban_hwid` inserts its bound
fingerprint into that denylist, after which the fingerprint is denied under
every key, including a different, otherwise-valid one. -/
theorem globally_banned_is_checked_first :
    (∀ db key fp now, (get_banned_hwid db fp).isSome = true →
        validate_license db key fp now = (.globallyBanned, db)) ∧
    (∀ db key reason now lic fp, get_license db key = some lic → lic.hwid = some fp →
        (get_banned_hwid ((admin_ban_license db key reason true now).2) fp).isSome =
          true) := by
  constructor
  · intro db key fp now h
    exact validate_globallyBanned db key fp now h
  · intro db key reason now lic fp hget hh
    unfold admin_ban_license
    rw [hget]
    simp only [log_event, hh, if_true, eq_self_iff_true, ite_true]
    rw [get_banned_hwid_save_license]
    exact get_banned_hwid_after_insert db _ fp rfl

theorem globally_banned_is_checked_first_witness :
    (get_banned_hwid dbDenylisted "f1").isSome = true ∧
    validate_license dbDenylisted "DTC_SomeOtherKey_ffffff" "f1" 5 =
      (.globallyBanned, dbDenylisted) :=
  ⟨by rfl,
   globally_banned_is_checked_first.1 dbDenylisted "DTC_SomeOtherKey_ffffff" "f1" 5 (by rfl)⟩

/-- **C9.** `log_event` caps the audit log at 50 entries on every append,
and a run of events over an empty log keeps exactly the most recent 50 in
insertion order (so after 60 events exactly the last 50 survive). -/
theorem audit_log_capped_at_50 :
    (∀ lic now ev d, (log_event lic now ev d).logs.length ≤ 50) ∧
    (∀ lic es, lic.logs = [] →
        (appendEvents lic es).logs = (es.map mkEntry).drop (es.length - 50)) := by
  constructor
  · exact log_event_length_le
  · intro lic es h0
    rw [appendEvents_logs es lic (by rw [h0]; simp)]
    rw [h0]
    unfold takeLast
    simp [List.length_map]

/-- Sixty numbered events. -/
def sixtyEvents : List (Int × String × String) :=
  (List.range 60).map (fun i => ((i : Int), "VALIDATED", ""))

theorem audit_log_capped_at_50_witness :
    sampleLicense.logs = [] ∧
    (appendEvents sampleLicense sixtyEvents).logs =
      (sixtyEvents.map mkEntry).drop (sixtyEvents.length - 50) :=
  ⟨rfl, audit_log_capped_at_50.2 sampleLicense sixtyEvents rfl⟩

/-- **C3.** The duration clock starts at most once per binding cycle:
(a) whenever `expires_at` is already set, no path of `validate_license`
changes it; (b) in permanent mode a successful bind onto a cleared `hwid`
with the clock running (the post-reset state) succeeds and resumes the
stored expiry; (c) in shared-terminal mode a session open with the clock
running succeeds and resumes the stored expiry; (d) a lifetime-class null
expiry is never given a value. -/
theorem duration_clock_starts_once :
    (∀ db key fp now lic x, get_license db key = some lic →
        lic.expires_at = some x →
        (validate_license db key fp now).2 = db ∨
        ∃ r, (validate_license db key fp now).2 = save_license db r ∧
          r.expires_at = some x) ∧
    (∀ db key fp now lic t, (get_banned_hwid db fp).isSome = false →
        get_license db key = some lic → lic.is_banned = false →
        lic.is_active = true → lic.is_warnet = false → lic.hwid = none →
        lic.expires_at = some (.iso t) → now ≤ t →
        ∃ r, validate_license db key fp now =
            (.valid lic.duration_type (.iso t) false, save_license db r) ∧
          r.hwid = some fp ∧ r.expires_at = some (.iso t) ∧
          r.license_key = lic.license_key) ∧
    (∀ db key fp now lic t, (get_banned_hwid db fp).isSome = false →
        get_license db key = some lic → lic.is_banned = false →
        lic.is_active = true → lic.is_warnet = true →
        lic.warnet_active_hwid = none →
        lic.expires_at = some (.iso t) → now ≤ t →
        ∃ r, validate_license db key fp now =
            (.valid lic.duration_type (.iso t) true, save_license db r) ∧
          r.warnet_active_hwid = some fp ∧ r.expires_at = some (.iso t) ∧
          r.license_key = lic.license_key) ∧
    (∀ db key fp now lic, get_license db key = some lic →
        lic.expires_at = none → lic.duration_type = .lifetime →
        (validate_license db key fp now).2 = db ∨
        ∃ r, (validate_license db key fp now).2 = save_license db r ∧
          r.expires_at = none) := by
  refine ⟨?_, ?_, ?_, ?_⟩
  · intro db key fp now lic x hg hx
    rcases validate_expires_frame db key fp now lic hg (Or.inl (by rw [hx]; rfl)) with
      h | ⟨r, hr, he⟩
    · exact Or.inl h
    · exact Or.inr ⟨r, hr, by rw [he, hx]⟩
  · exact fun db key fp now lic t hb hg h1 h2 h3 h4 h5 h6 =>
      validate_rebind_resumes db key fp now lic t hb hg h1 h2 h3 h4 h5 h6
  · exact fun db key fp now lic t hb hg h1 h2 h3 h4 h5 h6 =>
      validate_session_open_resumes db key fp now lic t hb hg h1 h2 h3 h4 h5 h6
  · intro db key fp now lic hg hx hlt
    rcases validate_expires_frame db key fp now lic hg (Or.inr hlt) with h | ⟨r, hr, he⟩
    · exact Or.inl h
    · exact Or.inr ⟨r, hr, by rw [he, hx]⟩

/-- A normal-mode license whose binding was administratively cleared while
its expiry kept running. -/
def reboundLicense : License :=
  { sampleLicense with
    expires_at := some (.iso 500) }

def dbRebound : DB := { licenses := [reboundLicense], banned_hwids := [] }

theorem duration_clock_starts_once_witness :
    (get_banned_hwid dbRebound "f2").isSome = false ∧
    get_license dbRebound "DTC_JimBeam_a1b2c3" = some reboundLicense ∧
    reboundLicense.hwid = none ∧ reboundLicense.expires_at = some (.iso 500) ∧
    ∃ r, validate_license dbRebound "DTC_JimBeam_a1b2c3" "f2" 400 =
        (.valid reboundLicense.duration_type (.iso 500) false,
         save_license dbRebound r) ∧
      r.hwid = some "f2" ∧ r.expires_at = some (.iso 500) ∧
      r.license_key = reboundLicense.license_key :=
  ⟨by decide, by decide, rfl, rfl,
   duration_clock_starts_once.2.1 dbRebound "DTC_JimBeam_a1b2c3" "f2" 400
     reboundLicense 500 (by decide) (by decide) rfl rfl rfl rfl rfl (by decide)⟩

/-- Full effect of `admin_reset_hwid` on a found record. -/
theorem admin_reset_hwid_spec (db : DB) (key : String) (now : Int) (lic : License)
    (hget : get_license db key = some lic) :
    ∃ r, admin_reset_hwid db key now = (.success, save_license db r) ∧
      r.hwid = none ∧ r.expires_at = lic.expires_at ∧
      r.license_key = lic.license_key ∧ r.is_warnet = lic.is_warnet ∧
      r.is_banned = lic.is_banned ∧ r.is_active = lic.is_active ∧
      r.duration_type = lic.duration_type ∧
      (lic.is_warnet = true →
        r.warnet_active_hwid = none ∧ r.warnet_session_start = none) := by
  by_cases hw : lic.is_warnet = true
  · refine ⟨log_event
        { lic with hwid := none, warnet_active_hwid := none, warnet_session_start := none }
        now "HWID_RESET"
        ("Old: " ++ takeStr 12 (lic.hwid.getD "none") ++ " | Warnet sesi dibersihkan"),
      ?_, ?_, ?_, ?_, ?_, ?_, ?_, ?_, ?_⟩
    · unfold admin_reset_hwid
      rw [hget]
      simp [hw]
    · simp [log_event]
    · simp [log_event]
    · simp [log_event]
    · simp [log_event]
    · simp [log_event]
    · simp [log_event]
    · simp [log_event]
    · intro
      exact ⟨by simp [log_event], by simp [log_event]⟩
  · refine ⟨log_event { lic with hwid := none } now "HWID_RESET"
        ("Old: " ++ takeStr 12 (lic.hwid.getD "none") ++ " | Sisa waktu dipertahankan"),
      ?_, ?_, ?_, ?_, ?_, ?_, ?_, ?_, ?_⟩
    · unfold admin_reset_hwid
      rw [hget]
      simp [hw]
    · simp [log_event]
    · simp [log_event]
    · simp [log_event]
    · simp [log_event]
    · simp [log_event]
    · simp [log_event]
    · simp [log_event]
    · intro hcon
      exact absurd hcon hw

/-- **C4.** `admin_reset_hwid` clears the binding while leaving `expires_at`
exactly as it was (in warnet mode it additionally clears the live session
fields), and a subsequent successful permanent-mode validation binds the
new fingerprint and resumes the same expiry. -/
theorem reset_binding_preserves_expiry :
    (∀ db key now lic, get_license db key = some lic →
        ∃ r, admin_reset_hwid db key now = (.success, save_license db r) ∧
          r.hwid = none ∧ r.expires_at = lic.expires_at ∧
          r.license_key = lic.license_key ∧
          (lic.is_warnet = true →
            r.warnet_active_hwid = none ∧ r.warnet_session_start = none)) ∧
    (∀ db key fp now now1 lic t, get_license db key = some lic →
        (get_banned_hwid db fp).isSome = false →
        lic.is_banned = false → lic.is_active = true → lic.is_warnet = false →
        lic.expires_at = some (.iso t) → now1 ≤ t →
        ∃ r, validate_license (admin_reset_hwid db key now).2 key fp now1 =
            (.valid lic.duration_type (.iso t) false,
             save_license (admin_reset_hwid db key now).2 r) ∧
          r.hwid = some fp ∧ r.expires_at = some (.iso t)) := by
  constructor
  · intro db key now lic hget
    obtain ⟨r, h0, h1, h2, h3, _, _, _, _, h4⟩ := admin_reset_hwid_spec db key now lic hget
    exact ⟨r, h0, h1, h2, h3, h4⟩
  · intro db key fp now now1 lic t hget hb h1 h2 h3 h5 h6
    obtain ⟨r0, hreset, hr0hwid, hr0exp, hr0key, hr0warnet, hr0banned, hr0active,
      hr0dur, _⟩ := admin_reset_hwid_spec db key now lic hget
    have hdb2 : (admin_reset_hwid db key now).2 = save_license db r0 := by rw [hreset]
    rw [hdb2]
    have hget2 : get_license (save_license db r0) key = some r0 :=
      get_license_save_license db key lic r0 hget hr0key
    have hb2 : (get_banned_hwid (save_license db r0) fp).isSome = false := by
      rw [get_banned_hwid_save_license]
      exact hb
    obtain ⟨r, hv, hrh, hre, hrk⟩ :=
      validate_rebind_resumes (save_license db r0) key fp now1 r0 t hb2 hget2
        (by rw [hr0banned]; exact h1) (by rw [hr0active]; exact h2)
        (by rw [hr0warnet]; exact h3) hr0hwid (by rw [hr0exp]; exact h5) h6
    refine ⟨r, ?_, hrh, hre⟩
    rw [hv, hr0dur]

/-- A bound normal-mode license with a running clock (pre-reset state). -/
def boundRunningLicense : License :=
  { sampleLicense with
    hwid := some "f1"
    expires_at := some (.iso 800) }

def dbBoundRunning : DB := { licenses := [boundRunningLicense], banned_hwids := [] }

theorem reset_binding_preserves_expiry_witness :
    get_license dbBoundRunning "DTC_JimBeam_a1b2c3" = some boundRunningLicense ∧
    boundRunningLicense.expires_at = some (.iso 800) ∧
    ∃ r, validate_license (admin_reset_hwid dbBoundRunning "DTC_JimBeam_a1b2c3" 300).2
        "DTC_JimBeam_a1b2c3" "f2" 400 =
        (.valid boundRunningLicense.duration_type (.iso 800) false,
         save_license (admin_reset_hwid dbBoundRunning "DTC_JimBeam_a1b2c3" 300).2 r) ∧
      r.hwid = some "f2" ∧ r.expires_at = some (.iso 800) :=
  ⟨by decide, rfl,
   reset_binding_preserves_expiry.2 dbBoundRunning "DTC_JimBeam_a1b2c3" "f2" 300 400
     boundRunningLicense 800 (by decide) (by decide) rfl rfl rfl rfl (by decide)⟩

/-- **C5.** Shared-terminal session exclusion: with a live session held by
fingerprint `a`, validation from a different fingerprint is denied
`WARNET_LOCKED` and the contention event is logged and persisted before
returning, the session holder staying unchanged; validation from the
holder itself succeeds as a revalidation (given the license has not
expired), keeping the session.  The session is one field, so two distinct
fingerprints never hold it simultaneously. -/
theorem warnet_session_mutual_exclusion :
    (∀ db key fp now lic a, (get_banned_hwid db fp).isSome = false →
        get_license db key = some lic → lic.is_banned = false →
        lic.is_active = true → lic.is_warnet = true →
        lic.warnet_active_hwid = some a → a ≠ fp →
        ∃ r, validate_license db key fp now = (.warnetLocked, save_license db r) ∧
          r.warnet_active_hwid = some a ∧ r.expires_at = lic.expires_at ∧
          r.logs.getLast?.map LogEntry.event = some "WARNET_LOCKED") ∧
    (∀ db key fp now lic, (get_banned_hwid db fp).isSome = false →
        get_license db key = some lic → lic.is_banned = false →
        lic.is_active = true → lic.is_warnet = true →
        lic.warnet_active_hwid = some fp →
        (∀ u, lic.expires_at = some (.iso u) → now ≤ u) →
        ∃ r, validate_license db key fp now =
            (.valid lic.duration_type (respExpires lic.expires_at) true,
             save_license db r) ∧
          r.warnet_active_hwid = some fp) := by
  constructor
  · intro db key fp now lic a hb hg h1 h2 h3 ha hne
    have hbr : (if lic.is_warnet then warnetBranch lic fp now
        else normalBranch lic fp now) =
        .deny .warnetLocked (log_event lic now "WARNET_LOCKED"
          ("Active: " ++ takeStr 12 a ++ " | Blocked: " ++ takeStr 12 fp)) := by
      rw [h3]
      simp only [if_true]
      exact warnetBranch_locked lic fp a now ha hne
    have hv := validate_deny db key fp now lic _ _ hb hg h1 h2 hbr
    refine ⟨_, hv, ?_, ?_, ?_⟩
    · simp [log_event, ha]
    · simp [log_event]
    · rw [log_event_getLast]
      rfl
  · intro db key fp now lic hb hg h1 h2 h3 ha hle
    set lic1 := log_event lic now "WARNET_REVALIDATED" ("HWID: " ++ takeStr 12 fp)
      with hlic1
    have hbr : (if lic.is_warnet then warnetBranch lic fp now
        else normalBranch lic fp now) = .cont lic1 := by
      rw [h3]
      simp only [if_true]
      exact warnetBranch_revalidate lic fp now ha
    have hexp1 : lic1.expires_at = lic.expires_at := by simp [hlic1, log_event]
    have hdur : lic1.duration_type = lic.duration_type := by simp [hlic1, log_event]
    have hnot : (match lic1.expires_at with
        | some (.iso u) => decide (now > u)
        | _ => false) = false := by
      rw [hexp1]
      cases he : lic.expires_at with
      | none => rfl
      | some ts =>
        cases ts with
        | iso u =>
          have hu := hle u he
          simp only [decide_eq_false_iff_not]
          omega
        | never => rfl
        | nullStr => rfl
    have hv := validate_cont_success db key fp now lic lic1 hb hg h1 h2 hbr hnot
    refine ⟨log_event { lic1 with last_used := some now } now "VALIDATED"
        ("HWID: " ++ takeStr 12 fp), ?_, ?_⟩
    · rw [hv, hdur, hexp1, h3]
    · simp [hlic1, log_event, ha]

theorem warnet_session_mutual_exclusion_witness :
    (get_banned_hwid dbWarnetSession "f2").isSome = false ∧
    get_license dbWarnetSession "DTC_Absolut_0f0f0f" = some warnetSessionLicense ∧
    warnetSessionLicense.is_warnet = true ∧
    warnetSessionLicense.warnet_active_hwid = some "f1" ∧ "f1" ≠ "f2" ∧
    ∃ r, validate_license dbWarnetSession "DTC_Absolut_0f0f0f" "f2" 9 =
        (.warnetLocked, save_license dbWarnetSession r) ∧
      r.warnet_active_hwid = some "f1" ∧
      r.expires_at = warnetSessionLicense.expires_at ∧
      r.logs.getLast?.map LogEntry.event = some "WARNET_LOCKED" :=
  ⟨by decide, by decide, rfl, rfl, by decide,
   warnet_session_mutual_exclusion.1 dbWarnetSession "DTC_Absolut_0f0f0f" "f2" 9
     warnetSessionLicense "f1" (by decide) (by decide) rfl rfl rfl rfl (by decide)⟩

/-- When the binding branch does not deny (no foreign session in warnet
mode, no foreign binding in normal mode) and the clock is already running
or lifetime, control falls through with `expires_at`, `duration_type` and
`is_active` unchanged. -/
theorem branch_cont_of_pass (lic : License) (fp : String) (now : Int)
    (hc : truthy lic.expires_at = true ∨ lic.duration_type = .lifetime)
    (hwpass : lic.is_warnet = true →
      lic.warnet_active_hwid = none ∨ lic.warnet_active_hwid = some fp)
    (hnpass : lic.is_warnet = false → lic.hwid = none ∨ lic.hwid = some fp) :
    ∃ lic1, (if lic.is_warnet then warnetBranch lic fp now
        else normalBranch lic fp now) = .cont lic1 ∧
      lic1.expires_at = lic.expires_at ∧ lic1.duration_type = lic.duration_type ∧
      lic1.is_active = lic.is_active ∧ lic1.license_key = lic.license_key := by
  by_cases hw : lic.is_warnet = true
  · rcases hwpass hw with ha | ha
    · refine ⟨log_event
          { lic with warnet_active_hwid := some fp, warnet_session_start := some now }
          now "WARNET_SESSION_START" ("HWID: " ++ takeStr 12 fp), ?_, ?_, ?_, ?_, ?_⟩
      · rw [if_pos hw]
        exact warnetBranch_open_noRestart lic fp now ha hc
      · simp [log_event]
      · simp [log_event]
      · simp [log_event]
      · simp [log_event]
    · refine ⟨log_event lic now "WARNET_REVALIDATED" ("HWID: " ++ takeStr 12 fp),
        ?_, ?_, ?_, ?_, ?_⟩
      · rw [if_pos hw]
        exact warnetBranch_revalidate lic fp now ha
      · simp [log_event]
      · simp [log_event]
      · simp [log_event]
      · simp [log_event]
  · simp only [Bool.not_eq_true] at hw
    rcases hnpass hw with hh | hh
    · refine ⟨log_event { lic with hwid := some fp } now "HWID_REBOUND"
          ("HWID: " ++ takeStr 12 fp ++ " | Timer lanjut"), ?_, ?_, ?_, ?_, ?_⟩
      · rw [if_neg (by rw [hw]; simp)]
        exact normalBranch_rebind_noRestart lic fp now hh hc
      · simp [log_event]
      · simp [log_event]
      · simp [log_event]
      · simp [log_event]
    · refine ⟨lic, ?_, rfl, rfl, rfl, rfl⟩
      rw [if_neg (by rw [hw]; simp)]
      exact normalBranch_match lic fp now hh

/-- **C6 (amended).** For every validation that reaches the expiry check —
fingerprint not denylisted, key found, record neither banned nor inactive,
and the binding branch not denying (no foreign session / no foreign
binding) — a stored timestamp strictly in the past makes `validate_license`
set `is_active := false`, clear the live session in warnet mode, persist
the record, and deny `DurationEnded`; the check runs on each such
validation attempt, not on a timer. -/
theorem lazy_expiry_flips_inactive :
    ∀ db key fp now lic t, (get_banned_hwid db fp).isSome = false →
      get_license db key = some lic → lic.is_banned = false →
      lic.is_active = true →
      (lic.is_warnet = true →
        lic.warnet_active_hwid = none ∨ lic.warnet_active_hwid = some fp) →
      (lic.is_warnet = false → lic.hwid = none ∨ lic.hwid = some fp) →
      lic.expires_at = some (.iso t) → now > t →
      ∃ r, validate_license db key fp now = (.durationEnded, save_license db r) ∧
        r.is_active = false ∧
        (lic.is_warnet = true →
          r.warnet_active_hwid = none ∧ r.warnet_session_start = none) ∧
        r.logs.getLast?.map LogEntry.event = some "AUTO_EXPIRED" := by
  intro db key fp now lic t hb hg h1 h2 hwpass hnpass hexp hgt
  obtain ⟨lic1, hbr, he1, _, _, _⟩ :=
    branch_cont_of_pass lic fp now (Or.inl (by rw [hexp]; rfl)) hwpass hnpass
  have hts : lic1.expires_at = some (.iso t) := by rw [he1, hexp]
  have hv := validate_cont_expired db key fp now lic lic1 t hb hg h1 h2 hbr hts hgt
  by_cases hw : lic.is_warnet = true
  · rw [if_pos hw] at hv
    refine ⟨_, hv, ?_, ?_, ?_⟩
    · simp [log_event]
    · intro
      exact ⟨by simp [log_event], by simp [log_event]⟩
    · rw [log_event_getLast]
      rfl
  · rw [if_neg hw] at hv
    refine ⟨_, hv, ?_, ?_, ?_⟩
    · simp [log_event]
    · intro hcon
      exact absurd hcon hw
    · rw [log_event_getLast]
      rfl

/-- **C6 (counterexample).** An expired, bound, normal-mode license
validated from a different fingerprint is denied `HWID Mismatch`, not
`DurationEnded`, and its `is_active` stays true: the literal claim "for
every validation where `expires_at` is past" fails when an earlier check
fires first. -/
theorem lazy_expiry_counterexample :
    expiredBoundLicense.expires_at = some (.iso 100) ∧ ((100 : Int) < 200) ∧
    (validate_license dbExpiredBound "DTC_JimBeam_a1b2c3" "fB" 200).1 = .hwidMismatch ∧
    (validate_license dbExpiredBound "DTC_JimBeam_a1b2c3" "fB" 200).1 ≠ .durationEnded ∧
    (get_license (validate_license dbExpiredBound "DTC_JimBeam_a1b2c3" "fB" 200).2
        "DTC_JimBeam_a1b2c3").map (fun r => r.is_active) = some true := by
  refine ⟨rfl, by decide, by decide, by decide, by decide⟩

theorem lazy_expiry_flips_inactive_witness :
    (get_banned_hwid dbExpiredBound "fA").isSome = false ∧
    get_license dbExpiredBound "DTC_JimBeam_a1b2c3" = some expiredBoundLicense ∧
    expiredBoundLicense.expires_at = some (.iso 100) ∧ ((200 : Int) > 100) ∧
    ∃ r, validate_license dbExpiredBound "DTC_JimBeam_a1b2c3" "fA" 200 =
        (.durationEnded, save_license dbExpiredBound r) ∧
      r.is_active = false ∧
      (expiredBoundLicense.is_warnet = true →
        r.warnet_active_hwid = none ∧ r.warnet_session_start = none) ∧
      r.logs.getLast?.map LogEntry.event = some "AUTO_EXPIRED" :=
  ⟨by decide, by decide, rfl, by decide,
   lazy_expiry_flips_inactive dbExpiredBound "DTC_JimBeam_a1b2c3" "fA" 200
     expiredBoundLicense 100 (by decide) (by decide) rfl rfl (by decide) (by decide)
     rfl (by decide)⟩

/-- **C7.** `admin_extend` refuses lifetime-class licenses
(`NotExtendable`, store untouched); on a non-lifetime license with a stored
expiry it writes `max(expires_at, now) + days·86400` — so extending an
already-expired license anchors at "now", not the stale expiry — and when
no expiry is stored it writes `now + days·86400`. -/
theorem extend_adds_days_to_max :
    (∀ db key days now lic, get_license db key = some lic →
        lic.duration_type = .lifetime →
        admin_extend db key days now = (.notExtendable, db)) ∧
    (∀ db key days now lic t, get_license db key = some lic →
        lic.duration_type ≠ .lifetime → lic.expires_at = some (.iso t) →
        ∃ r, admin_extend db key days now = (.success, save_license db r) ∧
          r.expires_at = some (.iso (max t now + days * 86400)) ∧
          r.is_active = true) ∧
    (∀ db key days now lic, get_license db key = some lic →
        lic.duration_type ≠ .lifetime → lic.expires_at = none →
        ∃ r, admin_extend db key days now = (.success, save_license db r) ∧
          r.expires_at = some (.iso (now + days * 86400)) ∧
          r.is_active = true) := by
  refine ⟨?_, ?_, ?_⟩
  · intro db key days now lic hget hlt
    unfold admin_extend
    rw [hget]
    simp [hlt]
  · intro db key days now lic t hget hne hexp
    refine ⟨log_event
        { lic with expires_at := some (.iso (max t now + days * 86400)),
                   is_active := true }
        now "EXTENDED" ("+" ++ toString days ++ " hari"), ?_, ?_, ?_⟩
    · unfold admin_extend
      rw [hget]
      simp [hne, hexp, parse_dt]
    · simp [log_event]
    · simp [log_event]
  · intro db key days now lic hget hne hexp
    refine ⟨log_event
        { lic with expires_at := some (.iso (now + days * 86400)), is_active := true }
        now "EXTENDED" ("+" ++ toString days ++ " hari"), ?_, ?_, ?_⟩
    · unfold admin_extend
      rw [hget]
      simp [hne, hexp]
    · simp [log_event]
    · simp [log_event]

theorem extend_adds_days_to_max_witness :
    get_license dbExpiredBound "DTC_JimBeam_a1b2c3" = some expiredBoundLicense ∧
    expiredBoundLicense.duration_type ≠ .lifetime ∧
    expiredBoundLicense.expires_at = some (.iso 100) ∧
    ∃ r, admin_extend dbExpiredBound "DTC_JimBeam_a1b2c3" 7 200 =
        (.success, save_license dbExpiredBound r) ∧
      r.expires_at = some (.iso (max 100 200 + 7 * 86400)) ∧
      r.is_active = true :=
  ⟨by decide, by decide, rfl,
   extend_adds_days_to_max.2.1 dbExpiredBound "DTC_JimBeam_a1b2c3" 7 200
     expiredBoundLicense 100 (by decide) (by decide) rfl⟩

/-- **C10.** A stored `expires_at` holding the literal string `"Never"` or
`"null"` bypasses the expiry comparison entirely: with every other check
passing, validation succeeds and the success response echoes the sentinel
string in its `expires_at` field — the license behaves as never-expiring. -/
theorem sentinel_expiry_never_expires :
    ∀ db key fp now lic s, (get_banned_hwid db fp).isSome = false →
      get_license db key = some lic → lic.is_banned = false →
      lic.is_active = true →
      (s = TimeStr.never ∨ s = TimeStr.nullStr) → lic.expires_at = some s →
      (lic.is_warnet = true →
        lic.warnet_active_hwid = none ∨ lic.warnet_active_hwid = some fp) →
      (lic.is_warnet = false → lic.hwid = none ∨ lic.hwid = some fp) →
      ∃ r, validate_license db key fp now =
          (.valid lic.duration_type s lic.is_warnet, save_license db r) ∧
        r.expires_at = some s := by
  intro db key fp now lic s hb hg h1 h2 hs hexp hwpass hnpass
  obtain ⟨lic1, hbr, he1, hd1, _, _⟩ :=
    branch_cont_of_pass lic fp now (Or.inl (by rw [hexp]; rfl)) hwpass hnpass
  have hts : lic1.expires_at = some s := by rw [he1, hexp]
  have hnot : (match lic1.expires_at with
      | some (.iso u) => decide (now > u)
      | _ => false) = false := by
    rw [hts]
    rcases hs with rfl | rfl <;> rfl
  have hv := validate_cont_success db key fp now lic lic1 hb hg h1 h2 hbr hnot
  rw [hd1, hts] at hv
  refine ⟨log_event
      { lic1 with duration_type := lic.duration_type, expires_at := some s,
                  last_used := some now }
      now "VALIDATED" ("HWID: " ++ takeStr 12 fp), ?_, ?_⟩
  · rw [hv]
    rfl
  · simp [log_event]

/-- A bound normal-mode record whose `expires_at` is the literal "Never". -/
def neverLicense : License :=
  { sampleLicense with
    hwid := some "f1"
    expires_at := some .never }

def dbNever : DB := { licenses := [neverLicense], banned_hwids := [] }

theorem sentinel_expiry_never_expires_witness :
    (get_banned_hwid dbNever "f1").isSome = false ∧
    get_license dbNever "DTC_JimBeam_a1b2c3" = some neverLicense ∧
    neverLicense.expires_at = some TimeStr.never ∧
    ∃ r, validate_license dbNever "DTC_JimBeam_a1b2c3" "f1" 999999 =
        (.valid neverLicense.duration_type TimeStr.never neverLicense.is_warnet,
         save_license dbNever r) ∧
      r.expires_at = some TimeStr.never :=
  ⟨by decide, by decide, rfl,
   sentinel_expiry_never_expires dbNever "DTC_JimBeam_a1b2c3" "f1" 999999
     neverLicense TimeStr.never (by decide) (by decide) rfl rfl (Or.inl rfl) rfl
     (by decide) (by decide)⟩
